import Mathlib

/-!
Verification of the e-commerce backend's controller layer: a shallow
embedding of the product, payment and settings controllers
(src/controllers/product.controller.js, the payment controller and the
settings controller) together with theorems checking the specified
properties.

Modelling conventions, used throughout:
* Request bodies and query strings are JavaScript objects whose fields may
  be absent; an absent field is `none`.  Numeric form fields that the code
  passes through `parseFloat` are modelled as already-parsed rationals
  (`Option ℚ`, with `none` covering both an absent field and the falsy
  empty string, which is what the code's truthiness tests distinguish).
* JavaScript `NaN` (the result of `parseInt` on a non-numeric string) is
  modelled as `none : Option Int`.
* Timestamps are milliseconds since the Unix epoch as `ℕ`; the server's
  local time zone is taken to be UTC (`setHours` then coincides with
  UTC end-of-day).
* The document store is a list: of `(id, Product)` pairs for products,
  of `Payment` records for payment intents.  External services
  (image storage upload) are modelled by their outcome (`uploadOk`);
  an error returned before `save`/`findByIdAndDelete` leaves the store
  unchanged, exactly as the handlers return via `next(err)` before any
  persistence call.
-/

/-- JS `parseInt(s)`: skip leading whitespace, optional sign, then leading
decimal digits; `none` models `NaN` (no digits).  (The `0x` hex form is not
modelled; no query in scope uses it.) -/
def natOfDigits (cs : List Char) : ℕ :=
  cs.foldl (fun a c => a * 10 + (c.toNat - 48)) 0

def jsParseInt (s : String) : Option Int :=
  let cs := s.toList.dropWhile Char.isWhitespace
  let signAndRest : Int × List Char :=
    match cs with
    | '-' :: r => (-1, r)
    | '+' :: r => (1, r)
    | _ => (1, cs)
  let digits := signAndRest.2.takeWhile Char.isDigit
  if digits.isEmpty then none
  else some (signAndRest.1 * (natOfDigits digits : Int))

/-- `const { page = 1 } = req.query`: the destructuring default applies only
when the key is absent; a present value goes through `parseInt`. -/
def pageParam (q : Option String) : Option Int :=
  match q with
  | none => some 1
  | some s => jsParseInt s

/-- `const { limit = d } = req.query` followed by `parseInt(limit)`. -/
def limitParam (dflt : Int) (q : Option String) : Option Int :=
  match q with
  | none => some dflt
  | some s => jsParseInt s

/-- The pagination envelope built by the listing handlers, over already
numeric `page`/`limit`/total values:
`totalPages = Math.ceil(total / limit)`, `hasNext = page < totalPages`,
`hasPrev = page > 1`. -/
structure Pagination where
  currentPage : ℕ
  totalPages : ℕ
  totalCount : ℕ
  hasNext : Bool
  hasPrev : Bool
deriving DecidableEq, Repr

def mkPagination (page limit total : ℕ) : Pagination :=
  let totalPages := (total + limit - 1) / limit
  { currentPage := page
    totalPages := totalPages
    totalCount := total
    hasNext := decide (page < totalPages)
    hasPrev := decide (1 < page) }

/-- The same envelope at the raw-string layer, keeping JS number semantics:
`none` models `NaN` (and, for `totalPages` with a zero limit, the non-finite
result of dividing by zero).  JS comparisons against `NaN` are false. -/
structure JsPagination where
  currentPage : Option Int
  totalPages : Option Int
  totalCount : ℕ
  hasNext : Bool
  hasPrev : Bool
deriving DecidableEq, Repr

def jsCeilDiv (total : ℕ) (l : Int) : Option Int :=
  if l = 0 then none
  else some (Int.ceil ((total : ℚ) / (l : ℚ)))

def jsPagination (p l : Option Int) (total : ℕ) : JsPagination :=
  let tp : Option Int :=
    match l with
    | none => none
    | some lv => jsCeilDiv total lv
  { currentPage := p
    totalPages := tp
    totalCount := total
    hasNext :=
      match p, tp with
      | some pv, some tpv => decide (pv < tpv)
      | _, _ => false
    hasPrev :=
      match p with
      | some pv => decide (1 < pv)
      | none => false }

/-- GET /products pagination: `page = 1`, `limit = 20` destructuring defaults. -/
def productsPagination (page limit : Option String) (total : ℕ) : JsPagination :=
  jsPagination (pageParam page) (limitParam 20 limit) total

/-- GET /payments pagination: `page = 1`, `limit = 10` destructuring defaults. -/
def paymentsPagination (page limit : Option String) (total : ℕ) : JsPagination :=
  jsPagination (pageParam page) (limitParam 10 limit) total

/-! ## Product controller -/

structure Image where
  public_id : String
  url : String
deriving DecidableEq, Repr

structure Product where
  name : String
  description : String
  price : ℚ
  category : String
  stock : Int
  images : List Image
  owner : String
  is_featured : Bool
  is_flash_sale : Bool
  flash_sale_price : Option ℚ
  flash_sale_start : Option ℕ
  flash_sale_end : Option ℕ
deriving DecidableEq, Repr

/-- `mongoose.isValidObjectId`: a 24-character hex string.  (The legacy
12-byte-string form is not modelled; no identifier in scope uses it.) -/
def isHexDigit (c : Char) : Bool :=
  c.isDigit || (97 ≤ c.toNat && c.toNat ≤ 102) || (65 ≤ c.toNat && c.toNat ≤ 70)

def isValidObjectId (s : String) : Bool :=
  s.length == 24 && s.toList.all isHexDigit

abbrev ProductDb := List (String × Product)

/-- `Product.findById` -/
def findById (db : ProductDb) (i : String) : Option Product :=
  (db.find? (fun e => e.fst == i)).map Prod.snd

/-- `product.save()` after mutating the document found under `i` -/
def saveById (db : ProductDb) (i : String) (p : Product) : ProductDb :=
  db.map (fun e => if e.fst == i then (e.fst, p) else e)

/-- `Product.findByIdAndDelete` -/
def removeById (db : ProductDb) (i : String) : ProductDb :=
  db.filter (fun e => e.fst != i)

/-- `createProduct`'s request body.  String scalars are `Option String`
(`none` = absent/falsy); `price`, `stock` and `flash_sale_price` carry the
value their `parseFloat`/`parseInt` produces, with `none` covering an
absent or empty (falsy) field. -/
structure CreateBody where
  name : Option String := none
  description : Option String := none
  price : Option ℚ := none
  category : Option String := none
  stock : Option Int := none
  is_flash_sale : Option String := none
  flash_sale_price : Option ℚ := none
  is_featured : Option String := none
deriving DecidableEq, Repr

inductive CreateOutcome where
  | err (code : ℕ) (msg : String)
  | created (p : Product)
deriving DecidableEq, Repr

def flashWindowMs : ℕ := 7 * 24 * 60 * 60 * 1000

/-- `createProduct`: 401 without a session; 400 on a missing required field;
400 when `is_flash_sale === 'true'` and the flash price is missing or
`>= price`; 400 without an image; 500 when the storage upload fails
(`uploadOk = false`); otherwise the persisted document.  `files` stands for
the uploaded images as the storage service returns them. -/
def createProduct (userId : Option String) (b : CreateBody) (files : List Image)
    (uploadOk : Bool) (now : ℕ) : CreateOutcome :=
  match userId with
  | none => .err 401 "Unauthorized"
  | some uid =>
    if b.name = none ∨ b.description = none ∨ b.price = none ∨ b.category = none ∨
        b.stock = none then
      .err 400 "Please provide all required fields"
    else if b.is_flash_sale = some "true" ∧
        (b.flash_sale_price = none ∨ b.price.getD 0 ≤ b.flash_sale_price.getD 0) then
      .err 400 "Flash sale price must be less than regular price"
    else if files = [] then
      .err 400 "Please provide at least one product image"
    else if ¬ uploadOk then
      .err 500 "Failed to upload images"
    else
      .created
        { name := b.name.getD ""
          description := b.description.getD ""
          price := b.price.getD 0
          category := b.category.getD ""
          stock := b.stock.getD 0
          images := files
          owner := uid
          is_featured := decide (b.is_featured = some "true")
          is_flash_sale := decide (b.is_flash_sale = some "true")
          flash_sale_price := if b.is_flash_sale = some "true" then b.flash_sale_price else none
          flash_sale_start := if b.is_flash_sale = some "true" then some now else none
          flash_sale_end := if b.is_flash_sale = some "true" then some (now + flashWindowMs) else none }

/-- `updateProduct`'s request body.  `is_featured` is a JSON boolean
(`if (is_featured)` is its truthiness test); `existingImages` is
`none` when absent, `some none` when present but `JSON.parse` throws,
`some (some l)` when it parses to the list `l`. -/
structure UpdateBody where
  name : Option String := none
  description : Option String := none
  price : Option ℚ := none
  category : Option String := none
  stock : Option Int := none
  is_flash_sale : Option String := none
  flash_sale_price : Option ℚ := none
  existingImages : Option (Option (List Image)) := none
  is_featured : Option Bool := none
deriving DecidableEq, Repr

/-- Lines 221–226: each scalar is applied when `!== undefined`;
`is_featured` only when truthy (a JSON `true`). -/
def applyScalarUpdates (p : Product) (b : UpdateBody) : Product :=
  { p with
    name := b.name.getD p.name
    description := b.description.getD p.description
    price := b.price.getD p.price
    category := b.category.getD p.category
    stock := b.stock.getD p.stock
    is_featured := if b.is_featured = some true then true else p.is_featured }

/-- Lines 229–243: the flash-sale block, run after the scalar updates (so
the price guard compares against the already-updated price). -/
def applyFlashSaleUpdate (p : Product) (b : UpdateBody) (now : ℕ) : Product :=
  match b.is_flash_sale with
  | none => p
  | some s =>
    if s = "true" then
      let p := { p with is_flash_sale := true }
      match b.flash_sale_price with
      | some fp =>
        if fp < p.price then
          { p with
            flash_sale_price := some fp
            flash_sale_start := some now
            flash_sale_end := some (now + flashWindowMs) }
        else p
      | none => p
    else
      { p with
        is_flash_sale := false
        flash_sale_price := none
        flash_sale_start := none
        flash_sale_end := none }

def updateFields (p : Product) (b : UpdateBody) (now : ℕ) : Product :=
  applyFlashSaleUpdate (applyScalarUpdates p b) b now

deriving instance DecidableEq for Except

structure UpdateResult where
  outcome : Except (ℕ × String) Product
  db : ProductDb
deriving DecidableEq, Repr

/-- `updateProduct`: id/auth/existence/ownership guards in the handler's
order, then the field merge, then the image policy (kept `existingImages`
plus newly uploaded `files`; an empty result leaves `images` unchanged);
the document is saved only on the success path, so every error leaves the
store as it was. -/
def updateProduct (db : ProductDb) (productId : String) (userId : Option String)
    (b : UpdateBody) (files : List Image) (uploadOk : Bool) (now : ℕ) : UpdateResult :=
  if ¬ isValidObjectId productId then ⟨.error (400, "Invalid product ID"), db⟩
  else
    match userId with
    | none => ⟨.error (401, "Unauthorized"), db⟩
    | some uid =>
      match findById db productId with
      | none => ⟨.error (404, "Product not found"), db⟩
      | some product =>
        if product.owner ≠ uid then
          ⟨.error (403, "Forbidden: You do not own this product"), db⟩
        else
          let updated := updateFields product b now
          let kept : List Image :=
            match b.existingImages with
            | some (some l) => l
            | _ => []
          if files ≠ [] ∧ ¬ uploadOk then ⟨.error (500, "Failed to upload new images"), db⟩
          else
            let finalImages := kept ++ files
            let updated :=
              if finalImages ≠ [] then { updated with images := finalImages } else updated
            ⟨.ok updated, saveById db productId updated⟩

structure DeleteResult where
  outcome : Except (ℕ × String) Unit
  db : ProductDb
deriving DecidableEq, Repr

/-- `deleteProduct`: the same guards, then storage cleanup (an external
call, modelled as succeeding) and `findByIdAndDelete`. -/
def deleteProduct (db : ProductDb) (productId : String) (userId : Option String) :
    DeleteResult :=
  if ¬ isValidObjectId productId then ⟨.error (400, "Invalid product ID"), db⟩
  else
    match userId with
    | none => ⟨.error (401, "Unauthorized"), db⟩
    | some uid =>
      match findById db productId with
      | none => ⟨.error (404, "Product not found"), db⟩
      | some product =>
        if product.owner ≠ uid then
          ⟨.error (403, "Forbidden: You do not own this product"), db⟩
        else ⟨.ok (), removeById db productId⟩

/-! ## Payment controller: listing -/

structure Customer where
  name : String
  email : String
deriving DecidableEq, Repr

/-- An order document; `oid` stands for its `_id`. -/
structure Order where
  oid : String
  customer : Option Customer
deriving DecidableEq, Repr

structure Payment where
  intentId : Option String
  totalAmount : ℚ
  status : String
  createdAt : ℕ
  order : Option Order
deriving DecidableEq, Repr

/-- `getAllPayments`'s query parameters, past the numeric-parsing layer
(`pageParam`/`limitParam` model that layer); `startDate`/`endDate` hold the
millisecond value `new Date(...)` parses, `none` for an absent or empty
(falsy) parameter. -/
structure PaymentsQuery where
  page : ℕ := 1
  limit : ℕ := 10
  search : String := ""
  status : String := ""
  startDate : Option ℕ := none
  endDate : Option ℕ := none
  sortBy : String := "createdAt"
  sortOrder : String := "desc"
deriving DecidableEq, Repr

def msPerDay : ℕ := 86400000

/-- `end.setHours(23, 59, 59, 999)` on the UTC day of `t`. -/
def endOfDay (t : ℕ) : ℕ :=
  t - t % msPerDay + 86399999

/-- The Mongo filter the handler builds: a `status` clause only when the
parameter is neither empty nor "all", and `createdAt` bounds only for the
date sub-fields actually supplied (`$gte` from `startDate`, `$lte` from the
end-of-day-normalised `endDate`). -/
def paymentMatchesQuery (q : PaymentsQuery) (p : Payment) : Bool :=
  (if q.status ≠ "" ∧ q.status ≠ "all" then decide (p.status = q.status) else true) &&
  (match q.startDate with
   | none => true
   | some s => decide (s ≤ p.createdAt)) &&
  (match q.endDate with
   | none => true
   | some e => decide (p.createdAt ≤ endOfDay e))

/-- Generic insertion sort on a Boolean comparison, standing in for the
store's `sort()` stage. -/
def insertLe {α : Type} (le : α → α → Bool) (x : α) : List α → List α
  | [] => [x]
  | y :: ys => if le x y then x :: y :: ys else y :: insertLe le x ys

def sortLe {α : Type} (le : α → α → Bool) : List α → List α
  | [] => []
  | x :: xs => insertLe le x (sortLe le xs)

/-- The sort key `sortOptions[sortBy]` selects; the two numeric fields a
payment document offers are modelled, with the default `createdAt` for
anything else. -/
def paymentSortKey (sortBy : String) (p : Payment) : ℚ :=
  if sortBy = "totalAmount" then p.totalAmount else (p.createdAt : ℚ)

def paymentLe (sortBy sortOrder : String) (a b : Payment) : Bool :=
  if sortOrder = "desc" then decide (paymentSortKey sortBy b ≤ paymentSortKey sortBy a)
  else decide (paymentSortKey sortBy a ≤ paymentSortKey sortBy b)

/-- `PaymentIntent.find(query).sort(...).skip(skip).limit(limit)`: the
page the store hands back, before any search filtering. -/
def paymentsFetchPage (db : List Payment) (q : PaymentsQuery) : List Payment :=
  let filtered := db.filter (paymentMatchesQuery q)
  let sorted := sortLe (paymentLe q.sortBy q.sortOrder) filtered
  (sorted.drop ((q.page - 1) * q.limit)).take q.limit

/-- `needle` occurs as a contiguous substring of `hay` (JS `includes`). -/
def startsWithChars : List Char → List Char → Bool
  | [], _ => true
  | _ :: _, [] => false
  | a :: as, b :: bs => a == b && startsWithChars as bs

def containsChars (hay needle : List Char) : Bool :=
  match hay with
  | [] => needle.isEmpty
  | _ :: rest => startsWithChars needle hay || containsChars rest needle

def jsIncludes (hay needle : String) : Bool :=
  containsChars hay.toList needle.toList

/-- JS `toLowerCase()` on the ASCII range (the handler's search data). -/
def lowerChar (c : Char) : Char :=
  if 65 ≤ c.toNat ∧ c.toNat ≤ 90 then Char.ofNat (c.toNat + 32) else c

def lowerStr (s : String) : String :=
  String.mk (s.toList.map lowerChar)

/-- The post-fetch search predicate: lower-cased customer name, customer
email and intentId, plus the order id string (which the handler does not
lower-case), each tested with `includes(searchLower)`. -/
def paymentMatchesSearch (search : String) (p : Payment) : Bool :=
  let searchLower := lowerStr search
  let customerName := lowerStr (((p.order.bind Order.customer).map Customer.name).getD "")
  let customerEmail := lowerStr (((p.order.bind Order.customer).map Customer.email).getD "")
  let intentId := lowerStr (p.intentId.getD "")
  let orderId := (p.order.map Order.oid).getD ""
  jsIncludes customerName searchLower || jsIncludes customerEmail searchLower ||
    jsIncludes intentId searchLower || jsIncludes orderId searchLower

structure PaymentsResponse where
  data : List Payment
  pagination : Pagination
deriving DecidableEq, Repr

/-- `getAllPayments`: fetch a skip/limit page of the non-search query, then
(only when `search` is truthy) filter that page in memory; the pagination
envelope counts `countDocuments(query)` — the query without the search. -/
def getAllPayments (db : List Payment) (q : PaymentsQuery) : PaymentsResponse :=
  let fetched := paymentsFetchPage db q
  let data := if q.search = "" then fetched else fetched.filter (paymentMatchesSearch q.search)
  { data := data
    pagination := mkPagination q.page q.limit (db.filter (paymentMatchesQuery q)).length }

/-! ## Payment controller: analytics

The `$dateToString` bucket keys are computed from the proleptic Gregorian
calendar (the civil-from-days algorithm) on UTC days since the epoch;
`%V` is the ISO 8601 week number, `%Y` the calendar year, both as Mongo
formats them. -/

/-- (year, month, day) of UTC day number `z` (days since 1970-01-01);
valid for `z ≥ 0`, which keeps every intermediate quantity non-negative. -/
def civilFromDays (z : ℕ) : ℕ × ℕ × ℕ :=
  let zs := z + 719468
  let era := zs / 146097
  let doe := zs % 146097
  let yoe := (doe - doe / 1460 + doe / 36524 - doe / 146097) / 365
  let y := yoe + era * 400
  let doy := doe - (365 * yoe + yoe / 4 - yoe / 100)
  let mp := (5 * doy + 2) / 153
  let d := doy - (153 * mp + 2) / 5 + 1
  let m := if mp < 10 then mp + 3 else mp - 9
  (if m ≤ 2 then y + 1 else y, m, d)

def isLeap (y : ℕ) : Bool :=
  (y % 4 == 0 && y % 100 != 0) || y % 400 == 0

def daysBeforeMonth (y m : ℕ) : ℕ :=
  [0, 31, 59, 90, 120, 151, 181, 212, 243, 273, 304, 334].getD (m - 1) 0 +
    (if 2 < m ∧ isLeap y then 1 else 0)

def dayOfYear (y m d : ℕ) : ℕ :=
  daysBeforeMonth y m + d

/-- Number of ISO 8601 weeks in year `y` (52 or 53). -/
def isoWeekCount (y : ℕ) : ℕ :=
  let p := fun (yy : ℕ) => (yy + yy / 4 - yy / 100 + yy / 400) % 7
  if p y == 4 || p (y - 1) == 3 then 53 else 52

/-- ISO 8601 week number (1..53) of UTC day number `z`. -/
def isoWeekOfDay (z : ℕ) : ℕ :=
  let ymd := civilFromDays z
  let doy := dayOfYear ymd.1 ymd.2.1 ymd.2.2
  let dow := (z + 3) % 7 + 1
  let w := (doy + 10 - dow) / 7
  if w < 1 then isoWeekCount (ymd.1 - 1)
  else if w > isoWeekCount ymd.1 then 1
  else w

def padNum (width n : ℕ) : String :=
  let s := toString n
  if s.length < width then String.mk (List.replicate (width - s.length) '0') ++ s else s

/-- `$dateToString` with format `%Y-%m-%d`. -/
def fmtDay (t : ℕ) : String :=
  let ymd := civilFromDays (t / msPerDay)
  padNum 4 ymd.1 ++ "-" ++ padNum 2 ymd.2.1 ++ "-" ++ padNum 2 ymd.2.2

/-- `$dateToString` with format `%Y-%m`. -/
def fmtMonth (t : ℕ) : String :=
  let ymd := civilFromDays (t / msPerDay)
  padNum 4 ymd.1 ++ "-" ++ padNum 2 ymd.2.1

/-- `$dateToString` with format `%Y-W%V` (calendar year, ISO week). -/
def fmtWeek (t : ℕ) : String :=
  let z := t / msPerDay
  let ymd := civilFromDays z
  padNum 4 ymd.1 ++ "-W" ++ padNum 2 (isoWeekOfDay z)

/-- The `groupByFormat` the handler picks per period (monthly for anything
that is neither "daily" nor "weekly"). -/
def bucketKey (period : String) (t : ℕ) : String :=
  if period = "daily" then fmtDay t
  else if period = "weekly" then fmtWeek t
  else fmtMonth t

/-- The `dateRange` lower bound the handler picks per period. -/
def windowStart (period : String) (now : ℕ) : ℕ :=
  if period = "daily" then now - 7 * msPerDay
  else if period = "weekly" then now - 12 * 7 * msPerDay
  else now - 12 * 30 * msPerDay

/-- The trend pipeline's `$match` stage: paid and within the window. -/
def trendMatches (now : ℕ) (period : String) (p : Payment) : Bool :=
  decide (p.status = "paid") && decide (windowStart period now ≤ p.createdAt)

/-- BSON binary string order on the bucket keys (byte order; `$sort` on
`_id`).  On the pure-ASCII keys produced here this is code-point order. -/
def charsLe : List Char → List Char → Bool
  | [], _ => true
  | _ :: _, [] => false
  | a :: as, b :: bs =>
    if a.toNat < b.toNat then true
    else if b.toNat < a.toNat then false
    else charsLe as bs

def strLe (a b : String) : Bool :=
  charsLe a.toList b.toList

structure TrendEntry where
  period : String
  revenue : ℚ
  count : ℕ
deriving DecidableEq, Repr

/-- The `revenueTrend` aggregation: group the matched (paid, in-window)
records by bucket key, sum and count each group, `$sort: { _id: 1 }`. -/
def revenueTrend (db : List Payment) (now : ℕ) (period : String) : List TrendEntry :=
  let matched := db.filter (trendMatches now period)
  let keys := (matched.map (fun p => bucketKey period p.createdAt)).dedup
  let sortedKeys := sortLe strLe keys
  sortedKeys.map (fun k =>
    let grp := matched.filter (fun p => bucketKey period p.createdAt == k)
    { period := k
      revenue := (grp.map Payment.totalAmount).sum
      count := grp.length })

/-- `$match: { status: "paid" }` then `$sum: "$totalAmount"` — no date
restriction. -/
def totalRevenue (db : List Payment) : ℚ :=
  ((db.filter (fun p => decide (p.status = "paid"))).map Payment.totalAmount).sum

/-- The per-status `$group` followed by `find(...)?.count || 0`. -/
def statusCount (db : List Payment) (st : String) : ℕ :=
  (db.filter (fun p => decide (p.status = st))).length

def statusAmount (db : List Payment) (st : String) : ℚ :=
  ((db.filter (fun p => decide (p.status = st))).map Payment.totalAmount).sum

structure Analytics where
  totalRevenue : ℚ
  pendingPayments : ℕ
  pendingAmount : ℚ
  completedPayments : ℕ
  completedAmount : ℚ
  failedPayments : ℕ
  failedAmount : ℚ
  refundedPayments : ℕ
  refundedAmount : ℚ
  revenueTrend : List TrendEntry
deriving DecidableEq, Repr

def getPaymentAnalytics (db : List Payment) (now : ℕ) (period : String) : Analytics :=
  { totalRevenue := totalRevenue db
    pendingPayments := statusCount db "pending"
    pendingAmount := statusAmount db "pending"
    completedPayments := statusCount db "paid"
    completedAmount := statusAmount db "paid"
    failedPayments := statusCount db "failed"
    failedAmount := statusAmount db "failed"
    refundedPayments := statusCount db "refunded"
    refundedAmount := statusAmount db "refunded"
    revenueTrend := revenueTrend db now period }

/-! ## Settings controller -/

structure Settings where
  siteName : String
  siteDescription : String
  contactEmail : String
  contactPhone : String
  currency : String
  timezone : String
  maintenanceMode : Bool
deriving DecidableEq, Repr

/-- `updateSettings`'s body: six optional strings and an optional boolean
(`typeof maintenanceMode !== "undefined"` is its presence test). -/
structure SettingsBody where
  siteName : Option String := none
  siteDescription : Option String := none
  contactEmail : Option String := none
  contactPhone : Option String := none
  currency : Option String := none
  timezone : Option String := none
  maintenanceMode : Option Bool := none
deriving DecidableEq, Repr

/-- `if (field) settings.field = field`: applied only when present and
truthy (a non-empty string). -/
def applyTruthy (cur : String) (v : Option String) : String :=
  match v with
  | some w => if w ≠ "" then w else cur
  | none => cur

def updateSettings (s : Settings) (b : SettingsBody) : Settings :=
  { siteName := applyTruthy s.siteName b.siteName
    siteDescription := applyTruthy s.siteDescription b.siteDescription
    contactEmail := applyTruthy s.contactEmail b.contactEmail
    contactPhone := applyTruthy s.contactPhone b.contactPhone
    currency := applyTruthy s.currency b.currency
    timezone := applyTruthy s.timezone b.timezone
    maintenanceMode :=
      match b.maintenanceMode with
      | some m => m
      | none => s.maintenanceMode }

/-! ## Claims about the pagination parameters and envelope -/

/-- C3 counterexample: a non-numeric `page` value does not fall back to the
default `page = 1`; `parseInt` yields `NaN` (modelled `none`), which the
handler propagates into the returned `currentPage`. -/
theorem products_page_invalid_not_default :
    (productsPagination (some "abc") (some "5") 20).currentPage ≠ some 1 := by
  decide

/-- C3 (amended): a missing `page`/`limit` falls back to `page = 1` and
`limit = 20` (products) or `limit = 10` (payments); a present but
non-numeric value does not fall back — `parseInt` gives `NaN`, which
propagates into the pagination fields instead of the default. -/
theorem listing_param_defaults (total : ℕ) (s : String) (h : jsParseInt s = none) :
    (productsPagination none none total).currentPage = some 1 ∧
    (productsPagination none none total).totalPages = jsCeilDiv total 20 ∧
    (paymentsPagination none none total).currentPage = some 1 ∧
    (paymentsPagination none none total).totalPages = jsCeilDiv total 10 ∧
    (productsPagination (some s) none total).currentPage = none ∧
    (paymentsPagination none (some s) total).totalPages = none := by
  refine ⟨rfl, rfl, rfl, rfl, ?_, ?_⟩
  · simp [productsPagination, jsPagination, pageParam, h]
  · simp [paymentsPagination, jsPagination, limitParam, h]

theorem listing_param_defaults_witness :
    (productsPagination none none 41).currentPage = some 1 ∧
    (productsPagination none none 41).totalPages = jsCeilDiv 41 20 ∧
    (paymentsPagination none none 41).currentPage = some 1 ∧
    (paymentsPagination none none 41).totalPages = jsCeilDiv 41 10 ∧
    (productsPagination (some "abc") none 41).currentPage = none ∧
    (paymentsPagination none (some "abc") 41).totalPages = none :=
  listing_param_defaults 41 "abc" (by decide)

/-- Auxiliary: `Math.ceil(total / limit)` as the handlers compute it equals
the mathematical ceiling of the rational `total / limit`. -/
theorem add_pred_div_eq_ceil (total limit : ℕ) (h : 0 < limit) :
    (total + limit - 1) / limit = ⌈(total : ℚ) / (limit : ℚ)⌉₊ := by
  have hq : (0 : ℚ) < (limit : ℚ) := by exact_mod_cast h
  apply le_antisymm
  · have h1 : total ≤ limit * ⌈(total : ℚ) / (limit : ℚ)⌉₊ := by
      have hle := Nat.le_ceil ((total : ℚ) / (limit : ℚ))
      rw [div_le_iff₀ hq] at hle
      have : (total : ℚ) ≤ ((limit * ⌈(total : ℚ) / (limit : ℚ)⌉₊ : ℕ) : ℚ) := by
        push_cast
        linarith [hle]
      exact_mod_cast this
    refine (Nat.div_le_iff_le_mul_add_pred h).2 ?_
    calc total + limit - 1 = total + (limit - 1) := by omega
      _ ≤ limit * ⌈(total : ℚ) / (limit : ℚ)⌉₊ + (limit - 1) :=
          Nat.add_le_add_right h1 _
  · rw [Nat.ceil_le, div_le_iff₀ hq]
    have h3 : total ≤ (total + limit - 1) / limit * limit := by
      have hd := Nat.div_add_mod (total + limit - 1) limit
      have hr : (total + limit - 1) % limit < limit := Nat.mod_lt _ h
      have hmul : limit * ((total + limit - 1) / limit)
          = (total + limit - 1) / limit * limit := Nat.mul_comm _ _
      omega
    exact_mod_cast h3

/-- C4: the pagination envelope satisfies
`totalPages = ⌈total / limit⌉`, `hasNext = (page < totalPages)` and
`hasPrev = (page > 1)` — as used by both listing handlers through
`mkPagination`. -/
theorem pagination_envelope (page limit total : ℕ) (h : 0 < limit) :
    (mkPagination page limit total).totalPages = ⌈(total : ℚ) / (limit : ℚ)⌉₊ ∧
    (mkPagination page limit total).hasNext
      = decide (page < (mkPagination page limit total).totalPages) ∧
    (mkPagination page limit total).hasPrev = decide (1 < page) := by
  exact ⟨add_pred_div_eq_ceil total limit h, rfl, rfl⟩

theorem pagination_envelope_witness :
    (mkPagination 2 10 25).totalPages = ⌈((25 : ℕ) : ℚ) / ((10 : ℕ) : ℚ)⌉₊ ∧
    (mkPagination 2 10 25).hasNext
      = decide (2 < (mkPagination 2 10 25).totalPages) ∧
    (mkPagination 2 10 25).hasPrev = decide (1 < 2) :=
  pagination_envelope 2 10 25 (by decide)

/-! ## Claims about settings updates and product ownership -/

def sampleSettings : Settings :=
  { siteName := "E-commerce Store"
    siteDescription := "Welcome to our online store"
    contactEmail := "admin@example.com"
    contactPhone := "+1234567890"
    currency := "USD"
    timezone := "UTC"
    maintenanceMode := true }

def sampleBody : SettingsBody :=
  { contactEmail := some "x@y.example" }

/-- C7: the settings update applies exactly the present-and-truthy string
fields, leaving absent or falsy fields at their previous value, while
`maintenanceMode` is applied whenever the key is present — including the
value `false`; updating only `siteName` changes only `siteName`. -/
theorem settings_partial_update (s : Settings) (b : SettingsBody) (v : String)
    (hv : v ≠ "") :
    (updateSettings s { siteName := some v } = { s with siteName := v }) ∧
    (updateSettings s { maintenanceMode := some false }
      = { s with maintenanceMode := false }) ∧
    (updateSettings s {} = s) ∧
    (updateSettings s { siteName := some "" } = s) ∧
    ((b.siteName = none ∨ b.siteName = some "") →
      (updateSettings s b).siteName = s.siteName) ∧
    (∀ w, w ≠ "" → b.siteName = some w → (updateSettings s b).siteName = w) ∧
    ((b.siteDescription = none ∨ b.siteDescription = some "") →
      (updateSettings s b).siteDescription = s.siteDescription) ∧
    (∀ w, w ≠ "" → b.siteDescription = some w → (updateSettings s b).siteDescription = w) ∧
    ((b.contactEmail = none ∨ b.contactEmail = some "") →
      (updateSettings s b).contactEmail = s.contactEmail) ∧
    (∀ w, w ≠ "" → b.contactEmail = some w → (updateSettings s b).contactEmail = w) ∧
    ((b.contactPhone = none ∨ b.contactPhone = some "") →
      (updateSettings s b).contactPhone = s.contactPhone) ∧
    (∀ w, w ≠ "" → b.contactPhone = some w → (updateSettings s b).contactPhone = w) ∧
    ((b.currency = none ∨ b.currency = some "") →
      (updateSettings s b).currency = s.currency) ∧
    (∀ w, w ≠ "" → b.currency = some w → (updateSettings s b).currency = w) ∧
    ((b.timezone = none ∨ b.timezone = some "") →
      (updateSettings s b).timezone = s.timezone) ∧
    (∀ w, w ≠ "" → b.timezone = some w → (updateSettings s b).timezone = w) ∧
    (b.maintenanceMode = none →
      (updateSettings s b).maintenanceMode = s.maintenanceMode) ∧
    (∀ m, b.maintenanceMode = some m → (updateSettings s b).maintenanceMode = m) := by
  refine ⟨?_, ?_, ?_, ?_, ?_, ?_, ?_, ?_, ?_, ?_, ?_, ?_, ?_, ?_, ?_, ?_, ?_, ?_⟩
  · simp [updateSettings, applyTruthy, hv]
  · simp [updateSettings, applyTruthy]
  · simp [updateSettings, applyTruthy]
  · simp [updateSettings, applyTruthy]
  all_goals
    first
      | (rintro (h | h) <;> simp [updateSettings, applyTruthy, h])
      | (intro w hw h; simp [updateSettings, applyTruthy, h, hw])
      | (intro h; simp [updateSettings, applyTruthy, h])
      | (intro m h; simp [updateSettings, applyTruthy, h])

theorem settings_partial_update_witness :
    updateSettings sampleSettings { siteName := some "X" }
      = { sampleSettings with siteName := "X" } :=
  (settings_partial_update sampleSettings sampleBody "X" (by decide)).1

def ownedProduct : Product :=
  { name := "Widget"
    description := "A widget"
    price := 100
    category := "gadgets"
    stock := 5
    images := [{ public_id := "img1", url := "http://img.example/1" }]
    owner := "ownerA"
    is_featured := false
    is_flash_sale := false
    flash_sale_price := none
    flash_sale_start := none
    flash_sale_end := none }

def productStore : ProductDb := [("aaaaaaaaaaaaaaaaaaaaaaaa", ownedProduct)]

/-- C8: an update or delete attempt by an authenticated account that does
not own the product fails with 403 Forbidden, and the store — hence the
stored product — is returned unchanged. -/
theorem ownership_forbidden (db : ProductDb) (pid uid : String) (p : Product)
    (b : UpdateBody) (files : List Image) (uploadOk : Bool) (now : ℕ)
    (hvalid : isValidObjectId pid = true)
    (hfound : findById db pid = some p)
    (howner : p.owner ≠ uid) :
    updateProduct db pid (some uid) b files uploadOk now
      = ⟨.error (403, "Forbidden: You do not own this product"), db⟩ ∧
    deleteProduct db pid (some uid)
      = ⟨.error (403, "Forbidden: You do not own this product"), db⟩ := by
  constructor
  · simp [updateProduct, hvalid, hfound, howner]
  · simp [deleteProduct, hvalid, hfound, howner]

theorem ownership_forbidden_witness :
    updateProduct productStore "aaaaaaaaaaaaaaaaaaaaaaaa" (some "intruder") {} [] true 0
      = ⟨.error (403, "Forbidden: You do not own this product"), productStore⟩ :=
  (ownership_forbidden productStore "aaaaaaaaaaaaaaaaaaaaaaaa" "intruder" ownedProduct
    {} [] true 0 (by decide) (by decide) (by decide)).1

/-- C10: the update handler applies `is_featured` only when the supplied
value is truthy; an absent field or a `false` value leaves the stored flag
unchanged, so a featured product cannot be un-featured this way. -/
theorem featured_flag_truthy_only (p : Product) (b : UpdateBody) (now : ℕ)
    (h : b.is_featured = none ∨ b.is_featured = some false) :
    (updateFields p b now).is_featured = p.is_featured := by
  have hflash : ∀ q : Product, (applyFlashSaleUpdate q b now).is_featured = q.is_featured := by
    intro q
    unfold applyFlashSaleUpdate
    cases b.is_flash_sale with
    | none => rfl
    | some s =>
      by_cases hs : s = "true"
      · cases hfp : b.flash_sale_price with
        | none => simp [hs, hfp]
        | some fp => simp only [hs, hfp, if_true]; split <;> rfl
      · simp [hs]
  rw [updateFields, hflash]
  rcases h with h | h <;> simp [applyScalarUpdates, h]

def featuredProduct : Product := { ownedProduct with is_featured := true }

theorem featured_flag_truthy_only_witness :
    (updateFields featuredProduct { is_featured := some false } 0).is_featured
      = featuredProduct.is_featured :=
  featured_flag_truthy_only featuredProduct { is_featured := some false } 0 (Or.inr rfl)

/-! ## Claims about the flash-sale price guard -/

def flashStore : ProductDb := [("bbbbbbbbbbbbbbbbbbbbbbbb", ownedProduct)]

def flashBody : UpdateBody := { is_flash_sale := some "true", flash_sale_price := some 120 }

/-- C1 counterexample: an owner's update with `is_flash_sale='true'` and
`flash_sale_price = 120 >= price = 100` does **not** fail with a 400
validation error — the handler returns success, merely not applying the
flash price (and still switching `is_flash_sale` on). -/
theorem update_flash_ge_price_not_rejected :
    (updateProduct flashStore "bbbbbbbbbbbbbbbbbbbbbbbb" (some "ownerA")
        flashBody [] true 0).outcome
      = .ok { ownedProduct with is_flash_sale := true } := by
  decide

/-- Auxiliary: the update handler's flash-sale branch, when the supplied
flash price is not below the (already updated) price, switches
`is_flash_sale` on and changes nothing else. -/
theorem applyFlashSale_ge_not_applied (q : Product) (b : UpdateBody) (now : ℕ) (fp : ℚ)
    (huf : b.is_flash_sale = some "true") (hufp : b.flash_sale_price = some fp)
    (hge : q.price ≤ fp) :
    applyFlashSaleUpdate q b now = { q with is_flash_sale := true } := by
  unfold applyFlashSaleUpdate
  rw [huf, hufp]
  dsimp only
  rw [if_pos rfl, if_neg (by exact not_lt.mpr hge)]

/-- C1 (amended): at create time, `is_flash_sale='true'` with a missing
flash price or `flash_sale_price >= price` fails with a 400 validation
error; at update time there is no such rejection — when
`flash_sale_price >= `the resulting price, the update succeeds and the
stored `flash_sale_price` (with its window) is left unchanged, the invalid
value silently not applied. -/
theorem flash_sale_price_guard (uid : String) (cb : CreateBody) (files : List Image)
    (uploadOk : Bool) (now : ℕ) (p : Product) (b : UpdateBody) (fp : ℚ)
    (hcf : cb.is_flash_sale = some "true")
    (hcge : ∀ q pr, cb.flash_sale_price = some q → cb.price = some pr → pr ≤ q)
    (huf : b.is_flash_sale = some "true")
    (hufp : b.flash_sale_price = some fp)
    (hge : (applyScalarUpdates p b).price ≤ fp) :
    (∃ msg, createProduct (some uid) cb files uploadOk now = .err 400 msg) ∧
    (updateFields p b now).flash_sale_price = p.flash_sale_price ∧
    (updateFields p b now).flash_sale_start = p.flash_sale_start ∧
    (updateFields p b now).flash_sale_end = p.flash_sale_end ∧
    (updateFields p b now).is_flash_sale = true ∧
    (∀ db pid, isValidObjectId pid = true → findById db pid = some p →
        p.owner = uid → b.existingImages = none → files = [] →
        updateProduct db pid (some uid) b files uploadOk now
          = ⟨.ok (updateFields p b now), saveById db pid (updateFields p b now)⟩) := by
  have hupd : updateFields p b now
      = { applyScalarUpdates p b with is_flash_sale := true } := by
    rw [updateFields]
    exact applyFlashSale_ge_not_applied (applyScalarUpdates p b) b now fp huf hufp hge
  refine ⟨?_, ?_, ?_, ?_, ?_, ?_⟩
  · by_cases hreq : cb.name = none ∨ cb.description = none ∨ cb.price = none ∨
        cb.category = none ∨ cb.stock = none
    · exact ⟨"Please provide all required fields", by simp [createProduct, hreq]⟩
    · refine ⟨"Flash sale price must be less than regular price", ?_⟩
      have hflash : cb.is_flash_sale = some "true" ∧
          (cb.flash_sale_price = none ∨ cb.price.getD 0 ≤ cb.flash_sale_price.getD 0) := by
        refine ⟨hcf, ?_⟩
        cases hq : cb.flash_sale_price with
        | none => exact Or.inl rfl
        | some q =>
          cases hpr : cb.price with
          | none => exact absurd (Or.inr (Or.inr (Or.inl hpr))) hreq
          | some pr => exact Or.inr (by simpa [hq, hpr] using hcge q pr hq hpr)
      simp [createProduct, hreq, hflash]
  · rw [hupd]; simp [applyScalarUpdates]
  · rw [hupd]; simp [applyScalarUpdates]
  · rw [hupd]; simp [applyScalarUpdates]
  · rw [hupd]
  · intro db pid hvalid hfound howner hei hfiles
    simp [updateProduct, hvalid, hfound, howner, hei, hfiles]

def flashCreateBody : CreateBody :=
  { name := some "Widget"
    description := some "A widget"
    price := some 100
    category := some "gadgets"
    stock := some 5
    is_flash_sale := some "true"
    flash_sale_price := some 120 }

theorem flash_sale_price_guard_witness :
    (updateFields ownedProduct flashBody 0).flash_sale_price
      = ownedProduct.flash_sale_price :=
  (flash_sale_price_guard "ownerA" flashCreateBody [] true 0 ownedProduct flashBody 120
    rfl
    (by intro q pr hq hp
        simp only [flashCreateBody, Option.some.injEq] at hq hp
        rw [← hq, ← hp]
        norm_num)
    rfl rfl (by decide)).2.1

/-! ## Claim about the payments date-range filter -/

/-- C9: the payments filter builds `createdAt` bounds only for the date
sub-fields supplied; the `endDate` bound is normalised to 23:59:59.999 of
its UTC day, so a payment created at 23:59:59 on the `endDate` calendar day
passes the filter. -/
theorem payments_date_filter (q : PaymentsQuery) (p : Payment)
    (hst : q.status = "") (hsd : q.startDate = none) :
    (q.endDate = none → paymentMatchesQuery q p = true) ∧
    (∀ e, q.endDate = some e →
        (paymentMatchesQuery q p = true ↔ p.createdAt ≤ endOfDay e)) ∧
    (∀ d, endOfDay (d * msPerDay) = d * msPerDay + 86399999) ∧
    (∀ d, q.endDate = some (d * msPerDay) →
        p.createdAt = d * msPerDay + 86399000 → paymentMatchesQuery q p = true) ∧
    (∀ (q2 : PaymentsQuery) (s : ℕ), q2.status = "" → q2.endDate = none →
        q2.startDate = some s →
        (paymentMatchesQuery q2 p = true ↔ s ≤ p.createdAt)) := by
  have hend : ∀ d : ℕ, endOfDay (d * msPerDay) = d * msPerDay + 86399999 := by
    intro d
    unfold endOfDay
    rw [Nat.mul_mod_left]
    omega
  refine ⟨?_, ?_, hend, ?_, ?_⟩
  · intro he; simp [paymentMatchesQuery, hst, hsd, he]
  · intro e he; simp [paymentMatchesQuery, hst, hsd, he]
  · intro d he hc
    simp only [paymentMatchesQuery, hst, hsd, he, hc]
    simp [hend d]
  · intro q2 s h1 h2 h3
    simp [paymentMatchesQuery, h1, h2, h3]

def endDayQuery : PaymentsQuery := { endDate := some (19723 * msPerDay) }

def endDayPayment : Payment :=
  { intentId := some "PI9"
    totalAmount := 10
    status := "paid"
    createdAt := 19723 * msPerDay + 86399000
    order := none }

theorem payments_date_filter_witness :
    paymentMatchesQuery endDayQuery endDayPayment = true :=
  (payments_date_filter endDayQuery endDayPayment rfl rfl).2.2.2.1 19723 rfl rfl

/-! ## Claims about payment analytics totals and the search-after-limit
listing -/

/-- C5: `totalRevenue` is the sum of `totalAmount` over the records with
status "paid", with no date restriction (it does not depend on the period
or the current time), and each of the four status buckets reports count 0
and amount 0 — fields that are present in the response — when no record
has that status. -/
theorem analytics_totals (db : List Payment) (now now2 : ℕ) (period period2 : String) :
    (getPaymentAnalytics db now period).totalRevenue
      = ((db.filter (fun p => decide (p.status = "paid"))).map Payment.totalAmount).sum ∧
    (getPaymentAnalytics db now period).totalRevenue
      = (getPaymentAnalytics db now2 period2).totalRevenue ∧
    ((∀ p ∈ db, p.status ≠ "pending") →
      (getPaymentAnalytics db now period).pendingPayments = 0 ∧
      (getPaymentAnalytics db now period).pendingAmount = 0) ∧
    ((∀ p ∈ db, p.status ≠ "paid") →
      (getPaymentAnalytics db now period).completedPayments = 0 ∧
      (getPaymentAnalytics db now period).completedAmount = 0) ∧
    ((∀ p ∈ db, p.status ≠ "failed") →
      (getPaymentAnalytics db now period).failedPayments = 0 ∧
      (getPaymentAnalytics db now period).failedAmount = 0) ∧
    ((∀ p ∈ db, p.status ≠ "refunded") →
      (getPaymentAnalytics db now period).refundedPayments = 0 ∧
      (getPaymentAnalytics db now period).refundedAmount = 0) := by
  have hempty : ∀ st : String, (∀ p ∈ db, p.status ≠ st) →
      db.filter (fun p => decide (p.status = st)) = [] := by
    intro st h
    rw [List.filter_eq_nil_iff]
    intro p hp
    simpa using h p hp
  refine ⟨rfl, rfl, ?_, ?_, ?_, ?_⟩ <;>
    (intro h;
     constructor <;>
       simp [getPaymentAnalytics, statusCount, statusAmount, hempty _ h])

def alicePayment : Payment :=
  { intentId := some "PI1"
    totalAmount := 50
    status := "paid"
    createdAt := 1000
    order := some { oid := "cccccccccccccccccccccccc"
                    customer := some { name := "Alice", email := "alice@shop.example" } } }

def bobPayment : Payment :=
  { intentId := some "PI2"
    totalAmount := 75
    status := "paid"
    createdAt := 2000
    order := some { oid := "dddddddddddddddddddddddd"
                    customer := some { name := "Bob", email := "bob@shop.example" } } }

def searchDb : List Payment := [alicePayment, bobPayment]

def searchQuery : PaymentsQuery := { limit := 2, search := "alice" }

/-- C2: with a non-empty search term, the handler's returned rows are the
skip/limit page of the non-search query filtered in memory by the search
predicate; at most `limit` rows are fetched; the pagination envelope counts
the query **without** the search term; and, concretely, a searched page can
hold fewer matching rows than `limit` even though enough matching documents
would exist. -/
theorem payments_search_post_filter (db : List Payment) (q : PaymentsQuery)
    (h : q.search ≠ "") :
    (getAllPayments db q).data
      = (paymentsFetchPage db q).filter (paymentMatchesSearch q.search) ∧
    (paymentsFetchPage db q).length ≤ q.limit ∧
    (getAllPayments db q).data.length ≤ q.limit ∧
    (getAllPayments db q).pagination
      = mkPagination q.page q.limit (db.filter (paymentMatchesQuery q)).length ∧
    (∃ db2 q2, q2.search ≠ "" ∧
        (getAllPayments db2 q2).data.length < q2.limit ∧
        q2.limit ≤ (getAllPayments db2 q2).pagination.totalCount) := by
  have hdata : (getAllPayments db q).data
      = (paymentsFetchPage db q).filter (paymentMatchesSearch q.search) := by
    simp [getAllPayments, h]
  have hfetch : (paymentsFetchPage db q).length ≤ q.limit := by
    simp only [paymentsFetchPage, List.length_take]
    exact min_le_left _ _
  refine ⟨hdata, hfetch, ?_, rfl, ?_⟩
  · rw [hdata]
    exact le_trans (List.length_filter_le _ _) hfetch
  · exact ⟨searchDb, searchQuery, by decide, by decide, by decide⟩

theorem payments_search_post_filter_witness :
    (getAllPayments searchDb searchQuery).data
      = (paymentsFetchPage searchDb searchQuery).filter
          (paymentMatchesSearch searchQuery.search) :=
  (payments_search_post_filter searchDb searchQuery (by decide)).1

/-! ## Claim about the revenue trend -/

theorem charsLe_total : ∀ a b : List Char, charsLe a b = true ∨ charsLe b a = true := by
  intro a
  induction a with
  | nil => intro b; left; rfl
  | cons x xs ih =>
    intro b
    cases b with
    | nil => right; rfl
    | cons y ys =>
      by_cases h1 : x.toNat < y.toNat
      · left; simp [charsLe, h1]
      · by_cases h2 : y.toNat < x.toNat
        · right; simp [charsLe, h2]
        · rcases ih ys with h | h
          · left; simp [charsLe, h1, h2, h]
          · right; simp [charsLe, h1, h2, h]

theorem charsLe_trans : ∀ a b c : List Char,
    charsLe a b = true → charsLe b c = true → charsLe a c = true := by
  intro a
  induction a with
  | nil => intro b c _ _; rfl
  | cons x xs ih =>
    intro b c hab hbc
    cases b with
    | nil => simp [charsLe] at hab
    | cons y ys =>
      cases c with
      | nil => simp [charsLe] at hbc
      | cons z zs =>
        by_cases hxy : x.toNat < y.toNat
        · by_cases hyz : y.toNat < z.toNat
          · have hxz : x.toNat < z.toNat := lt_trans hxy hyz
            simp [charsLe, hxz]
          · by_cases hzy : z.toNat < y.toNat
            · simp [charsLe, hyz, hzy] at hbc
            · have hxz : x.toNat < z.toNat := by omega
              simp [charsLe, hxz]
        · by_cases hyx : y.toNat < x.toNat
          · simp [charsLe, hxy, hyx] at hab
          · have hab2 : charsLe xs ys = true := by
              simpa [charsLe, hxy, hyx] using hab
            by_cases hyz : y.toNat < z.toNat
            · have hxz : x.toNat < z.toNat := by omega
              simp [charsLe, hxz]
            · by_cases hzy : z.toNat < y.toNat
              · simp [charsLe, hyz, hzy] at hbc
              · have hbc2 : charsLe ys zs = true := by
                  simpa [charsLe, hyz, hzy] using hbc
                have hxz1 : ¬ x.toNat < z.toNat := by omega
                have hxz2 : ¬ z.toNat < x.toNat := by omega
                simp only [charsLe, if_neg hxz1, if_neg hxz2]
                exact ih ys zs hab2 hbc2

theorem strLe_total (a b : String) : strLe a b = true ∨ strLe b a = true :=
  charsLe_total a.toList b.toList

theorem strLe_trans (a b c : String) :
    strLe a b = true → strLe b c = true → strLe a c = true :=
  charsLe_trans a.toList b.toList c.toList

theorem mem_insertLe {α : Type} (le : α → α → Bool) (x : α) (l : List α) (z : α) :
    z ∈ insertLe le x l ↔ z = x ∨ z ∈ l := by
  induction l with
  | nil => simp [insertLe]
  | cons y ys ih =>
    simp only [insertLe]
    split
    · simp only [List.mem_cons]
    · simp only [List.mem_cons, ih]
      tauto

theorem pairwise_insertLe {α : Type} (le : α → α → Bool)
    (htot : ∀ a b, le a b = true ∨ le b a = true)
    (htrans : ∀ a b c, le a b = true → le b c = true → le a c = true)
    (x : α) (l : List α) (hl : List.Pairwise (fun a b => le a b = true) l) :
    List.Pairwise (fun a b => le a b = true) (insertLe le x l) := by
  induction l with
  | nil => simp [insertLe]
  | cons y ys ih =>
    rw [List.pairwise_cons] at hl
    obtain ⟨hy, hys⟩ := hl
    simp only [insertLe]
    split
    · next hxy =>
      rw [List.pairwise_cons]
      refine ⟨?_, List.pairwise_cons.mpr ⟨hy, hys⟩⟩
      intro z hz
      rcases List.mem_cons.mp hz with rfl | hz
      · exact hxy
      · exact htrans x y z hxy (hy z hz)
    · next hxy =>
      have hyx : le y x = true := by
        rcases htot x y with h | h
        · exact absurd h hxy
        · exact h
      rw [List.pairwise_cons]
      refine ⟨?_, ih hys⟩
      intro z hz
      rcases (mem_insertLe le x ys z).mp hz with rfl | hz
      · exact hyx
      · exact hy z hz

theorem pairwise_sortLe {α : Type} (le : α → α → Bool)
    (htot : ∀ a b, le a b = true ∨ le b a = true)
    (htrans : ∀ a b c, le a b = true → le b c = true → le a c = true)
    (l : List α) :
    List.Pairwise (fun a b => le a b = true) (sortLe le l) := by
  induction l with
  | nil => simp [sortLe]
  | cons x xs ih => exact pairwise_insertLe le htot htrans x _ ih

theorem mem_sortLe {α : Type} (le : α → α → Bool) (l : List α) (z : α) :
    z ∈ sortLe le l ↔ z ∈ l := by
  induction l with
  | nil => simp [sortLe]
  | cons x xs ih => simp [sortLe, mem_insertLe, ih]

/-- C6: every trend entry comes from a paid record inside the rolling
window tied to the period (daily: last 7 days bucketed by calendar day;
weekly: last 12*7 days bucketed by ISO week; anything else — the monthly
default — last 12*30 days bucketed by calendar month); entries carry the
bucket label, the bucket's revenue sum and its record count, and are
sorted ascending by bucket key. -/
theorem revenue_trend_spec (db : List Payment) (now t : ℕ) (period : String) :
    List.Pairwise (fun a b => strLe a b = true)
      ((revenueTrend db now period).map TrendEntry.period) ∧
    (∀ e ∈ revenueTrend db now period,
        (∃ p ∈ db, p.status = "paid" ∧ windowStart period now ≤ p.createdAt ∧
            bucketKey period p.createdAt = e.period) ∧
        e.revenue = (((db.filter (trendMatches now period)).filter
            (fun p => bucketKey period p.createdAt == e.period)).map
              Payment.totalAmount).sum ∧
        e.count = ((db.filter (trendMatches now period)).filter
            (fun p => bucketKey period p.createdAt == e.period)).length) ∧
    windowStart "daily" now = now - 7 * msPerDay ∧
    windowStart "weekly" now = now - 12 * 7 * msPerDay ∧
    (period ≠ "daily" → period ≠ "weekly" →
      windowStart period now = now - 12 * 30 * msPerDay) ∧
    bucketKey "daily" t = fmtDay t ∧
    bucketKey "weekly" t = fmtWeek t ∧
    (period ≠ "daily" → period ≠ "weekly" → bucketKey period t = fmtMonth t) := by
  refine ⟨?_, ?_, by simp [windowStart], by simp [windowStart], ?_, by simp [bucketKey],
    by simp [bucketKey], ?_⟩
  · simp only [revenueTrend, List.map_map]
    exact List.Pairwise.map _ (fun a b h => h)
      (pairwise_sortLe strLe strLe_total strLe_trans _)
  · intro e he
    simp only [revenueTrend] at he
    rw [List.mem_map] at he
    obtain ⟨k, hk, rfl⟩ := he
    rw [mem_sortLe, List.mem_dedup, List.mem_map] at hk
    obtain ⟨p, hp, hpk⟩ := hk
    rw [List.mem_filter] at hp
    obtain ⟨hpdb, hpm⟩ := hp
    have hpm2 := hpm
    rw [trendMatches, Bool.and_eq_true, decide_eq_true_eq, decide_eq_true_eq] at hpm2
    refine ⟨⟨p, hpdb, hpm2.1, hpm2.2, hpk⟩, rfl, rfl⟩
  · intro h1 h2; simp [windowStart, h1, h2]
  · intro h1 h2; simp [bucketKey, h1, h2]
